import Mathlib

/-!
Shallow embedding of the core modules of the GitHub-achievement-tracker
repository:

* `GithubClient` — the rate-limit aware request wrapper `withRateLimit`
  together with its helpers `isRateLimited` and `retryAfterMs`
  (githubClient.ts).
* `MergeManager` — the merge coordinator `mergePullRequest` (modelled as
  the trace of collaborator invocations it performs) and the
  mergeability poller `isMergeable` (mergeManager.ts).
* `Analytics` — the analytics accumulator: run lifecycle, `record*`
  operations, persistence of `RunRecord`s and aggregate reporting
  (analytics.ts).

JavaScript numbers are modelled as `Int` where the code only ever adds,
subtracts and compares integers (counters, millisecond timestamps), and
as `ℚ` where the code divides (averages, `formatMs`).  Timestamps enter
the model as epoch milliseconds (the value of `Date.getTime()` on the
ISO strings the code receives).
-/

namespace GithubClient

/--
A value thrown by a remote call, as inspected by `isRateLimited` and
`retryAfterMs`:

* `nonObject` — a thrown primitive (`typeof err !== "object"` or `null`);
* `object status response` — a thrown object whose `status` field is the
  number `n` when `status = some n` (and absent or not one of the
  compared numbers otherwise), and whose `response` field is absent when
  `response = none`, present without a string-valued `"retry-after"`
  entry when `response = some none`, and present with the string `s` at
  `"retry-after"` when `response = some (some s)`.
-/
inductive ThrownValue where
  | nonObject
  | object (status : Option Int) (response : Option (Option String))
deriving DecidableEq

/-- Outcome of one execution of the wrapped thunk: it either resolves
with a value or rejects with a thrown value. -/
inductive Outcome (α : Type) where
  | ok (v : α)
  | err (e : ThrownValue)
deriving DecidableEq

/-- `isRateLimited` (githubClient.ts, lines 71–75): a thrown value is a
rate-limit response when it is an object whose `status` field is
strictly equal to `403` or `429`. -/
def isRateLimited : ThrownValue → Bool
  | .nonObject => false
  | .object status _ => status == some 403 || status == some 429

/-- Numeric value of a list of decimal digit characters. -/
def digitsVal (l : List Char) : Nat :=
  l.foldl (fun a c => a * 10 + (c.toNat - 48)) 0

/-- Longest decimal-digit prefix, `none` when there is none. -/
def parseDigits (l : List Char) : Option Nat :=
  let ds := l.takeWhile Char.isDigit
  if ds.isEmpty then none else some (digitsVal ds)

/--
JavaScript `parseInt(s, 10)`: skip leading whitespace, read an optional
sign, then the longest prefix of decimal digits; `NaN` (here `none`)
when no digits follow.  The `Number.isFinite` guard in the source
corresponds to the parse having succeeded.
-/
def jsParseInt (s : String) : Option Int :=
  let cs := s.data.dropWhile (fun c => c == ' ' || c == '\t' || c == '\n' || c == '\r')
  match cs with
  | '-' :: rest => (parseDigits rest).map (fun n => -(n : Int))
  | '+' :: rest => (parseDigits rest).map (fun n => (n : Int))
  | rest => (parseDigits rest).map (fun n => (n : Int))

/-- `retryAfterMs` (githubClient.ts, lines 78–93): the wait in
milliseconds before the single retry — the `"retry-after"` header value
converted from seconds to milliseconds when it is a string that parses
to a finite integer, and the fixed default of 60 000 ms otherwise. -/
def retryAfterMs : ThrownValue → Int
  | .nonObject => 60000
  | .object _ none => 60000
  | .object _ (some none) => 60000
  | .object _ (some (some raw)) =>
    match jsParseInt raw with
    | some seconds => seconds * 1000
    | none => 60000

/-- Observable behaviour of one `withRateLimit` call: its final outcome,
how many times the thunk was executed, and the list of sleep durations
performed (in order). -/
structure RLTrace (α : Type) where
  result : Outcome α
  attempts : Nat
  sleeps : List Int
deriving DecidableEq

/--
`withRateLimit` (githubClient.ts, lines 47–64).  The thunk is modelled
as a function from the execution index (0 for the first execution, 1
for the retry) to its outcome.  The wrapper executes the thunk once; if
that fails with a rate-limit response it sleeps `retryAfterMs` once and
returns the outcome of exactly one more execution; any other failure
propagates immediately.
-/
def withRateLimit {α : Type} (fn : Nat → Outcome α) : RLTrace α :=
  match fn 0 with
  | .ok v => ⟨.ok v, 1, []⟩
  | .err e =>
    if isRateLimited e then
      ⟨fn 1, 2, [retryAfterMs e]⟩
    else
      ⟨.err e, 1, []⟩

end GithubClient

namespace MergeManager

open GithubClient

/-- Tri-state mergeability as reported by one poll of the pull-request
endpoint: `data.mergeable` is `true`, `false`, or `null` (still being
computed). -/
inductive MergeState where
  | mergeable
  | notMergeable
  | unknown
deriving DecidableEq

/-- Observable behaviour of one `isMergeable` call: the boolean it
returns and the number of polls it issued. -/
structure PollOutcome where
  result : Bool
  polls : Nat
deriving DecidableEq

/--
Loop body of `isMergeable` (mergeManager.ts, lines 308–321):
`attempt` is the 1-based index of the next poll and `fuel` the number of
loop iterations still allowed (`MAX_ATTEMPTS - attempt + 1`).  A poll
yielding `mergeable` returns `true` at once, `notMergeable` returns
`false` at once, and `unknown` sleeps and continues; when the fuel runs
out the loop falls through and returns `false`, having issued
`attempt - 1` polls.
-/
def isMergeableGo (poll : Nat → MergeState) : Nat → Nat → PollOutcome
  | attempt, 0 => ⟨false, attempt - 1⟩
  | attempt, fuel + 1 =>
    match poll attempt with
    | .mergeable => ⟨true, attempt⟩
    | .notMergeable => ⟨false, attempt⟩
    | .unknown => isMergeableGo poll (attempt + 1) fuel

/-- `isMergeable` (mergeManager.ts, lines 304–328): poll up to
`MAX_ATTEMPTS = 5` times, starting at attempt 1. -/
def isMergeable (poll : Nat → MergeState) : PollOutcome :=
  isMergeableGo poll 1 5

/-- One collaborator invocation performed by `mergePullRequest`, in
order: a `sleep`, the `commentOnPR` call, the `octokit.pulls.merge`
call (with its commit message), or the best-effort `deleteBranch`. -/
inductive MergeEvent where
  | sleepEv (ms : Nat)
  | commentEv (prNumber : Nat)
  | mergeEv (prNumber : Nat) (commitMessage : String)
  | deleteBranchEv (branch : String)
deriving DecidableEq

/--
Trace of collaborator invocations performed by `mergePullRequest`
(mergeManager.ts, lines 250–296), in program order.  `yolo` is the
call-site override and `configYoloMode` the process-wide
`config.yoloMode` default; the effective policy is `yolo ?? config.yoloMode`.
When the effective policy is reviewed (`useYolo = false`) the coordinator
sleeps 1 500 ms and posts one PR comment before anything else; in either
case it then sleeps 1 000 ms, issues the merge call (squash, with a
policy-appropriate commit message) and finally deletes the head branch.
-/
def mergePullRequest (prNumber : Nat) (branchName : String)
    (yolo : Option Bool) (configYoloMode : Bool) : List MergeEvent :=
  let useYolo := yolo.getD configYoloMode
  (if !useYolo then [.sleepEv 1500, .commentEv prNumber] else [])
    ++ [.sleepEv 1000,
        .mergeEv prNumber
          (if useYolo then "Merged without review (YOLO)." else "Merged after review."),
        .deleteBranchEv branchName]

/-- Recogniser for comment-posting events. -/
def isCommentEv : MergeEvent → Bool
  | .commentEv _ => true
  | _ => false

/-- Recogniser for merge-call events. -/
def isMergeEv : MergeEvent → Bool
  | .mergeEv _ _ => true
  | _ => false

end MergeManager

namespace Analytics

/-- The in-memory accumulator for the current run (analytics.ts,
`RunAccumulator`, lines 65–76).  Counters are JavaScript numbers that
are only ever incremented, modelled as `Int`; the two latency sequences
hold millisecond durations. -/
structure RunAccumulator where
  startedAt : String
  issuesCreated : Int
  issuesClosed : Int
  prsOpened : Int
  prsMerged : Int
  yoloMerges : Int
  commentsPosted : Int
  coAuthoredCommits : Int
  issueToFirstCommentMs : List Int
  prOpenToMergeMs : List Int
deriving DecidableEq

/-- A finalized run record (analytics.ts, `RunRecord`, lines 27–50). -/
structure RunRecord where
  startedAt : String
  finishedAt : String
  issuesCreated : Int
  issuesClosed : Int
  prsOpened : Int
  prsMerged : Int
  yoloMerges : Int
  commentsPosted : Int
  coAuthoredCommits : Int
  issueToFirstCommentMs : List Int
  prOpenToMergeMs : List Int
deriving DecidableEq

/-- The persisted analytics store (analytics.ts, `AnalyticsData`,
lines 53–58). -/
structure AnalyticsData where
  version : Int
  runs : List RunRecord
deriving DecidableEq

/-- The fresh accumulator installed by `startRun` (analytics.ts,
lines 86–97): all counters zero, both latency sequences empty. -/
def freshAccumulator (now : String) : RunAccumulator :=
  { startedAt := now
    issuesCreated := 0
    issuesClosed := 0
    prsOpened := 0
    prsMerged := 0
    yoloMerges := 0
    commentsPosted := 0
    coAuthoredCommits := 0
    issueToFirstCommentMs := []
    prOpenToMergeMs := [] }

/--
`startRun` (analytics.ts, lines 85–99).  The module-level state
`current : RunAccumulator | null` is threaded explicitly; functions of
the module that can `throw` return `Except String`.  The source body is
an unconditional assignment `current = { ... }` with no check of the
previous state, so this function never returns an error.
-/
def startRun (now : String) (_current : Option RunAccumulator) :
    Except String (Option RunAccumulator) :=
  .ok (some (freshAccumulator now))

/-- `ensureRunning` (analytics.ts, lines 124–127). -/
def ensureRunning (current : Option RunAccumulator) : Except String RunAccumulator :=
  match current with
  | none => .error "Analytics: no run in progress. Call startRun() first."
  | some acc => .ok acc

/-- Accumulator update of `recordIssueCreated` (analytics.ts, line 130). -/
def recordIssueCreatedAcc (acc : RunAccumulator) : RunAccumulator :=
  { acc with issuesCreated := acc.issuesCreated + 1 }

/-- Accumulator update of `recordIssueClosed` (analytics.ts, line 134). -/
def recordIssueClosedAcc (acc : RunAccumulator) : RunAccumulator :=
  { acc with issuesClosed := acc.issuesClosed + 1 }

/-- Accumulator update of `recordPROpened` (analytics.ts, line 138). -/
def recordPROpenedAcc (acc : RunAccumulator) : RunAccumulator :=
  { acc with prsOpened := acc.prsOpened + 1 }

/-- Accumulator update of `recordPRMerged` (analytics.ts, lines 141–145):
`prsMerged` is always incremented and `yoloMerges` additionally when
`yolo` is true. -/
def recordPRMergedAcc (yolo : Bool) (acc : RunAccumulator) : RunAccumulator :=
  let a := { acc with prsMerged := acc.prsMerged + 1 }
  if yolo then { a with yoloMerges := a.yoloMerges + 1 } else a

/-- Accumulator update of `recordCommentPosted` (analytics.ts, line 148). -/
def recordCommentPostedAcc (acc : RunAccumulator) : RunAccumulator :=
  { acc with commentsPosted := acc.commentsPosted + 1 }

/-- Accumulator update of `recordCoAuthoredCommit` (analytics.ts, line 152). -/
def recordCoAuthoredCommitAcc (acc : RunAccumulator) : RunAccumulator :=
  { acc with coAuthoredCommits := acc.coAuthoredCommits + 1 }

/-- Accumulator update of `recordIssueToComment` (analytics.ts,
lines 160–168): the timestamps arrive as epoch milliseconds (the values
of `Date.getTime()` on the ISO strings) and the appended duration is
`Math.max(ms, 0)` of their difference. -/
def recordIssueToCommentAcc (issueCreatedAtMs commentCreatedAtMs : Int)
    (acc : RunAccumulator) : RunAccumulator :=
  { acc with issueToFirstCommentMs :=
      acc.issueToFirstCommentMs ++ [max (commentCreatedAtMs - issueCreatedAtMs) 0] }

/-- Accumulator update of `recordPRToMerge` (analytics.ts,
lines 175–182). -/
def recordPRToMergeAcc (prCreatedAtMs mergedAtMs : Int)
    (acc : RunAccumulator) : RunAccumulator :=
  { acc with prOpenToMergeMs :=
      acc.prOpenToMergeMs ++ [max (mergedAtMs - prCreatedAtMs) 0] }

/-- `recordIssueCreated` (analytics.ts, lines 129–131), at state level. -/
def recordIssueCreated (current : Option RunAccumulator) :
    Except String (Option RunAccumulator) :=
  (ensureRunning current).map (fun acc => some (recordIssueCreatedAcc acc))

/-- `recordIssueClosed` (analytics.ts, lines 133–135). -/
def recordIssueClosed (current : Option RunAccumulator) :
    Except String (Option RunAccumulator) :=
  (ensureRunning current).map (fun acc => some (recordIssueClosedAcc acc))

/-- `recordPROpened` (analytics.ts, lines 137–139). -/
def recordPROpened (current : Option RunAccumulator) :
    Except String (Option RunAccumulator) :=
  (ensureRunning current).map (fun acc => some (recordPROpenedAcc acc))

/-- `recordPRMerged` (analytics.ts, lines 141–145). -/
def recordPRMerged (yolo : Bool) (current : Option RunAccumulator) :
    Except String (Option RunAccumulator) :=
  (ensureRunning current).map (fun acc => some (recordPRMergedAcc yolo acc))

/-- `recordCommentPosted` (analytics.ts, lines 147–149). -/
def recordCommentPosted (current : Option RunAccumulator) :
    Except String (Option RunAccumulator) :=
  (ensureRunning current).map (fun acc => some (recordCommentPostedAcc acc))

/-- `recordCoAuthoredCommit` (analytics.ts, lines 151–153). -/
def recordCoAuthoredCommit (current : Option RunAccumulator) :
    Except String (Option RunAccumulator) :=
  (ensureRunning current).map (fun acc => some (recordCoAuthoredCommitAcc acc))

/-- `recordIssueToComment` (analytics.ts, lines 160–168). -/
def recordIssueToComment (issueCreatedAtMs commentCreatedAtMs : Int)
    (current : Option RunAccumulator) : Except String (Option RunAccumulator) :=
  (ensureRunning current).map
    (fun acc => some (recordIssueToCommentAcc issueCreatedAtMs commentCreatedAtMs acc))

/-- `recordPRToMerge` (analytics.ts, lines 175–182). -/
def recordPRToMerge (prCreatedAtMs mergedAtMs : Int)
    (current : Option RunAccumulator) : Except String (Option RunAccumulator) :=
  (ensureRunning current).map
    (fun acc => some (recordPRToMergeAcc prCreatedAtMs mergedAtMs acc))

/-- The record built by `endRun` (analytics.ts, lines 105–108): the
accumulator's fields plus the finish timestamp. -/
def finalizeRecord (now : String) (acc : RunAccumulator) : RunRecord :=
  { startedAt := acc.startedAt
    finishedAt := now
    issuesCreated := acc.issuesCreated
    issuesClosed := acc.issuesClosed
    prsOpened := acc.prsOpened
    prsMerged := acc.prsMerged
    yoloMerges := acc.yoloMerges
    commentsPosted := acc.commentsPosted
    coAuthoredCommits := acc.coAuthoredCommits
    issueToFirstCommentMs := acc.issueToFirstCommentMs
    prOpenToMergeMs := acc.prOpenToMergeMs }

/--
`endRun` (analytics.ts, lines 102–118).  The persisted store is
threaded explicitly: the source loads it from disk, pushes the
finalized record, saves it back, clears `current` and returns the
record.  The returned triple is (finalized record, persisted store
after the write, module state after the call).
-/
def endRun (now : String) (current : Option RunAccumulator)
    (store : AnalyticsData) :
    Except String (RunRecord × AnalyticsData × Option RunAccumulator) :=
  match current with
  | none => .error "endRun called before startRun"
  | some acc =>
    let record := finalizeRecord now acc
    .ok (record, { store with runs := store.runs ++ [record] }, none)

/-- `sum` (analytics.ts, lines 324–326): `nums.reduce((a, b) => a + b, 0)`. -/
def sumNums (nums : List Int) : Int :=
  nums.foldl (fun a b => a + b) 0

/-- `avg` (analytics.ts, lines 328–330): the quotient is exact rational
division (the code divides JavaScript numbers). -/
def avg (nums : List Int) : ℚ :=
  if nums.length = 0 then 0 else (sumNums nums : ℚ) / (nums.length : ℚ)

/-- Aggregate statistics (analytics.ts, `AggregateStats`,
lines 223–234). -/
structure AggregateStats where
  totalRuns : Nat
  totalIssuesCreated : Int
  totalIssuesClosed : Int
  totalPRsOpened : Int
  totalPRsMerged : Int
  totalYoloMerges : Int
  totalComments : Int
  totalCoAuthoredCommits : Int
  avgIssueToCommentMs : ℚ
  avgPRToMergeMs : ℚ
deriving DecidableEq

/-- `getAggregateStats` (analytics.ts, lines 237–256), over an explicit
persisted store. -/
def getAggregateStats (data : AnalyticsData) : AggregateStats :=
  let runs := data.runs
  let allIssueToComment := (runs.map (fun r => r.issueToFirstCommentMs)).flatten
  let allPRToMerge := (runs.map (fun r => r.prOpenToMergeMs)).flatten
  { totalRuns := runs.length
    totalIssuesCreated := sumNums (runs.map (fun r => r.issuesCreated))
    totalIssuesClosed := sumNums (runs.map (fun r => r.issuesClosed))
    totalPRsOpened := sumNums (runs.map (fun r => r.prsOpened))
    totalPRsMerged := sumNums (runs.map (fun r => r.prsMerged))
    totalYoloMerges := sumNums (runs.map (fun r => r.yoloMerges))
    totalComments := sumNums (runs.map (fun r => r.commentsPosted))
    totalCoAuthoredCommits := sumNums (runs.map (fun r => r.coAuthoredCommits))
    avgIssueToCommentMs := avg allIssueToComment
    avgPRToMergeMs := avg allPRToMerge }

/-- JavaScript `Math.round` on a finite number: `⌊x + 1/2⌋`. -/
def jsRound (q : ℚ) : Int :=
  ⌊q + 1 / 2⌋

/--
`formatMs` (analytics.ts, lines 332–339).  On the minutes branch
`seconds ≥ 60`, so integer `ediv`/`emod` coincide with the source's
`Math.floor(seconds / 60)` and `seconds % 60`.
-/
def formatMs (ms : ℚ) : String :=
  if ms = 0 then "n/a"
  else
    let seconds := jsRound (ms / 1000)
    if seconds < 60 then toString seconds ++ "s"
    else
      let minutes := seconds / 60
      let remaining := seconds % 60
      toString minutes ++ "m " ++ toString remaining ++ "s"

/-- The two latency lines emitted by `printConsoleSummary` and
`generateMarkdownReport` (analytics.ts, lines 272–277 and 303–304):
`formatMs` applied to the two aggregate averages. -/
def latencySummary (data : AnalyticsData) : String × String :=
  let stats := getAggregateStats data
  (formatMs stats.avgIssueToCommentMs, formatMs stats.avgPRToMergeMs)

/-- One invocation of a `record*` operation, with its arguments. -/
inductive RecOp where
  | issueCreated
  | issueClosed
  | prOpened
  | prMerged (yolo : Bool)
  | commentPosted
  | coAuthoredCommit
  | issueToComment (issueCreatedAtMs commentCreatedAtMs : Int)
  | prToMerge (prCreatedAtMs mergedAtMs : Int)
deriving DecidableEq

/-- Dispatch a `record*` invocation to its accumulator update. -/
def applyRecOp : RecOp → RunAccumulator → RunAccumulator
  | .issueCreated, acc => recordIssueCreatedAcc acc
  | .issueClosed, acc => recordIssueClosedAcc acc
  | .prOpened, acc => recordPROpenedAcc acc
  | .prMerged yolo, acc => recordPRMergedAcc yolo acc
  | .commentPosted, acc => recordCommentPostedAcc acc
  | .coAuthoredCommit, acc => recordCoAuthoredCommitAcc acc
  | .issueToComment i c, acc => recordIssueToCommentAcc i c acc
  | .prToMerge p m, acc => recordPRToMergeAcc p m acc

/-- Number of fields of the accumulator on which two states differ. -/
def changedFields (a b : RunAccumulator) : Nat :=
  (if a.startedAt = b.startedAt then 0 else 1) +
  (if a.issuesCreated = b.issuesCreated then 0 else 1) +
  (if a.issuesClosed = b.issuesClosed then 0 else 1) +
  (if a.prsOpened = b.prsOpened then 0 else 1) +
  (if a.prsMerged = b.prsMerged then 0 else 1) +
  (if a.yoloMerges = b.yoloMerges then 0 else 1) +
  (if a.commentsPosted = b.commentsPosted then 0 else 1) +
  (if a.coAuthoredCommits = b.coAuthoredCommits then 0 else 1) +
  (if a.issueToFirstCommentMs = b.issueToFirstCommentMs then 0 else 1) +
  (if a.prOpenToMergeMs = b.prOpenToMergeMs then 0 else 1)

/-- All counters of the accumulator are non-negative and every entry of
both latency sequences is non-negative. -/
def AccNonneg (acc : RunAccumulator) : Prop :=
  0 ≤ acc.issuesCreated ∧ 0 ≤ acc.issuesClosed ∧ 0 ≤ acc.prsOpened ∧
  0 ≤ acc.prsMerged ∧ 0 ≤ acc.yoloMerges ∧ 0 ≤ acc.commentsPosted ∧
  0 ≤ acc.coAuthoredCommits ∧
  (∀ x ∈ acc.issueToFirstCommentMs, 0 ≤ x) ∧
  (∀ x ∈ acc.prOpenToMergeMs, 0 ≤ x)

/-- The spec's notion of average: the arithmetic mean of the entries,
with an empty sequence yielding 0.  Stated independently of the code's
`avg` (which tests `length === 0` and sums with a `reduce`), to be
compared with it. -/
def meanOrZero (l : List Int) : ℚ :=
  if l = [] then 0 else ((l.sum : Int) : ℚ) / (l.length : ℚ)

end Analytics


namespace GithubClient

/-- Characterisation of the throttling test: exactly the objects whose
`status` field is 403 or 429. -/
theorem isRateLimited_iff (e : ThrownValue) :
    isRateLimited e = true ↔
      ∃ st resp, e = .object (some st) resp ∧ (st = 403 ∨ st = 429) := by
  cases e with
  | nonObject => simp [isRateLimited]
  | object status resp =>
    cases status with
    | none => simp [isRateLimited]
    | some n => simp [isRateLimited]

end GithubClient

/-- C1: the rate-limited executor returns the second execution's success
after exactly one sleep and one retry when the first execution fails
with a throttling signal (status 403 or 429); when the retry also fails
it propagates that second failure without a third attempt; and a
non-throttling failure propagates immediately with no retry and no
sleep. -/
theorem withRateLimit_retry_policy {α : Type} (fn : Nat → GithubClient.Outcome α)
    (e e2 : GithubClient.ThrownValue) (v : α) :
    (GithubClient.isRateLimited e = true ↔
      ∃ st resp, e = .object (some st) resp ∧ (st = 403 ∨ st = 429)) ∧
    (fn 0 = .err e → GithubClient.isRateLimited e = true → fn 1 = .ok v →
      GithubClient.withRateLimit fn = ⟨.ok v, 2, [GithubClient.retryAfterMs e]⟩) ∧
    (fn 0 = .err e → GithubClient.isRateLimited e = true → fn 1 = .err e2 →
      GithubClient.withRateLimit fn = ⟨.err e2, 2, [GithubClient.retryAfterMs e]⟩) ∧
    (fn 0 = .err e → GithubClient.isRateLimited e = false →
      GithubClient.withRateLimit fn = ⟨.err e, 1, []⟩) := by
  refine ⟨GithubClient.isRateLimited_iff e, ?_, ?_, ?_⟩
  · intro h0 hrl h1
    simp [GithubClient.withRateLimit, h0, hrl, h1]
  · intro h0 hrl h1
    simp [GithubClient.withRateLimit, h0, hrl, h1]
  · intro h0 hrl
    simp [GithubClient.withRateLimit, h0, hrl]

/-- Witness for C1: a thunk that is throttled once (status 429) and then
succeeds; the wrapper returns the success after one sleep of the
default 60 000 ms. -/
theorem withRateLimit_retry_policy_witness :
    GithubClient.withRateLimit
        (fun i => if i = 0 then .err (.object (some 429) none) else .ok (7 : Nat)) =
      ⟨.ok 7, 2, [60000]⟩ :=
  (withRateLimit_retry_policy
      (fun i => if i = 0 then .err (.object (some 429) none) else .ok (7 : Nat))
      (.object (some 429) none) (.object (some 429) none) 7).2.1 rfl rfl rfl

/-- C9: for a throttling failure the executor sleeps exactly once, for
`retryAfterMs` of the failure; that duration is the retry-after hint
converted from seconds to milliseconds when the hint is present and
parses to an integer, and the fixed default of 60 000 ms otherwise. -/
theorem withRateLimit_wait_duration {α : Type} (fn : Nat → GithubClient.Outcome α)
    (e : GithubClient.ThrownValue)
    (h0 : fn 0 = .err e) (hrl : GithubClient.isRateLimited e = true) :
    (GithubClient.withRateLimit fn).sleeps = [GithubClient.retryAfterMs e] ∧
    (∀ st s n, e = .object st (some (some s)) → GithubClient.jsParseInt s = some n →
      GithubClient.retryAfterMs e = n * 1000) ∧
    (∀ st resp, e = .object st resp → (∀ s, resp ≠ some (some s)) →
      GithubClient.retryAfterMs e = 60000) ∧
    (∀ st s, e = .object st (some (some s)) → GithubClient.jsParseInt s = none →
      GithubClient.retryAfterMs e = 60000) := by
  refine ⟨?_, ?_, ?_, ?_⟩
  · simp [GithubClient.withRateLimit, h0, hrl]
  · rintro st s n rfl hp
    simp [GithubClient.retryAfterMs, hp]
  · rintro st resp rfl hne
    match resp with
    | none => rfl
    | some none => rfl
    | some (some s) => exact absurd rfl (hne s)
  · rintro st s rfl hp
    simp [GithubClient.retryAfterMs, hp]

/-- Witness for C9: a 403 failure carrying the retry-after hint "7"
makes the executor sleep exactly once for 7 000 ms. -/
theorem withRateLimit_wait_duration_witness :
    (GithubClient.withRateLimit
        (fun i => if i = 0 then .err (.object (some 403) (some (some "7"))) else .ok (1 : Nat))).sleeps
      = [7000] ∧
    GithubClient.retryAfterMs (.object (some 403) (some (some "7"))) = 7 * 1000 := by
  have h := withRateLimit_wait_duration
    (fun i => if i = 0 then .err (.object (some 403) (some (some "7"))) else .ok (1 : Nat))
    (.object (some 403) (some (some "7"))) rfl rfl
  exact ⟨h.1, h.2.1 (some 403) "7" 7 rfl rfl⟩

namespace MergeManager

/-- If every poll in the window is `unknown`, the loop exhausts its fuel
and returns `false` after issuing every allowed poll. -/
theorem isMergeableGo_all_unknown (poll : Nat → MergeState) :
    ∀ fuel attempt, (∀ j, attempt ≤ j → j < attempt + fuel → poll j = .unknown) →
      isMergeableGo poll attempt fuel = ⟨false, attempt + fuel - 1⟩ := by
  intro fuel
  induction fuel with
  | zero => intro attempt _; rfl
  | succ n ih =>
    intro attempt h
    have hcur : poll attempt = .unknown := h attempt le_rfl (by omega)
    have : isMergeableGo poll attempt (n + 1) = isMergeableGo poll (attempt + 1) n := by
      simp [isMergeableGo, hcur]
    rw [this, ih (attempt + 1) (fun j h1 h2 => h j (by omega) (by omega))]
    congr 1
    omega

/-- The loop stops at the first poll in the window that is not
`unknown`, returning `true` iff that poll is `mergeable`, after exactly
that many polls. -/
theorem isMergeableGo_first_decided (poll : Nat → MergeState) :
    ∀ fuel attempt i, attempt ≤ i → i < attempt + fuel →
      (∀ j, attempt ≤ j → j < i → poll j = .unknown) → poll i ≠ .unknown →
      isMergeableGo poll attempt fuel = ⟨decide (poll i = .mergeable), i⟩ := by
  intro fuel
  induction fuel with
  | zero => intro attempt i h1 h2; omega
  | succ n ih =>
    intro attempt i h1 h2 hu hd
    rcases Nat.eq_or_lt_of_le h1 with heq | hlt
    · subst heq
      cases hpoll : poll attempt with
      | mergeable => simp [isMergeableGo, hpoll]
      | notMergeable => simp [isMergeableGo, hpoll]
      | unknown => exact absurd hpoll hd
    · have hcur : poll attempt = .unknown := hu attempt le_rfl hlt
      have : isMergeableGo poll attempt (n + 1) = isMergeableGo poll (attempt + 1) n := by
        simp [isMergeableGo, hcur]
      rw [this]
      exact ih (attempt + 1) i (by omega) (by omega)
        (fun j ha hb => hu j (by omega) hb) hd

/-- The loop only inspects polls inside its window. -/
theorem isMergeableGo_congr (p q : Nat → MergeState) :
    ∀ fuel attempt, (∀ j, attempt ≤ j → j < attempt + fuel → p j = q j) →
      isMergeableGo p attempt fuel = isMergeableGo q attempt fuel := by
  intro fuel
  induction fuel with
  | zero => intro attempt _; rfl
  | succ n ih =>
    intro attempt h
    have hcur : p attempt = q attempt := h attempt le_rfl (by omega)
    have hrest := ih (attempt + 1) (fun j h1 h2 => h j (by omega) (by omega))
    simp only [isMergeableGo, hcur]
    cases q attempt <;> simp [hrest]

end MergeManager

/-- C2: the mergeability poller returns `true` at the first poll
yielding `mergeable` and `false` at the first poll yielding
`not-mergeable`, continuing only on `unknown`; when all five allowed
polls yield `unknown` it returns `false` after exactly 5 polls; and its
outcome never depends on any poll beyond the fifth. -/
theorem isMergeable_polling (poll : Nat → MergeManager.MergeState) (i : Nat) :
    (1 ≤ i → i ≤ 5 → (∀ j, 1 ≤ j → j < i → poll j = .unknown) → poll i ≠ .unknown →
      MergeManager.isMergeable poll = ⟨decide (poll i = .mergeable), i⟩) ∧
    ((∀ j, 1 ≤ j → j ≤ 5 → poll j = .unknown) →
      MergeManager.isMergeable poll = ⟨false, 5⟩) ∧
    (∀ q : Nat → MergeManager.MergeState, (∀ j, 1 ≤ j → j ≤ 5 → poll j = q j) →
      MergeManager.isMergeable poll = MergeManager.isMergeable q) := by
  refine ⟨?_, ?_, ?_⟩
  · intro h1 h2 hu hd
    exact MergeManager.isMergeableGo_first_decided poll 5 1 i h1 (by omega) hu hd
  · intro h
    exact MergeManager.isMergeableGo_all_unknown poll 5 1
      (fun j h1 h2 => h j h1 (by omega))
  · intro q h
    exact MergeManager.isMergeableGo_congr poll q 5 1
      (fun j h1 h2 => h j h1 (by omega))

/-- Witness for C2: for the poll sequence [unknown, unknown, mergeable]
the poller returns `true` after exactly 3 polls. -/
theorem isMergeable_polling_witness :
    MergeManager.isMergeable
        (fun j => if 3 ≤ j then .mergeable else .unknown) = ⟨true, 3⟩ := by
  have h := (isMergeable_polling (fun j => if 3 ≤ j then .mergeable else .unknown) 3).1
    (by omega) (by omega)
    (fun j h1 h2 => by simp [Nat.not_le.2 h2])
    (by simp)
  simpa using h

/-- C3: when the effective policy (call-site flag when provided, else
the process-wide default) is YOLO, `mergePullRequest` never posts a PR
comment; when it is reviewed, it posts exactly one PR comment, and that
invocation occurs strictly before the merge call in the trace. -/
theorem mergePullRequest_comment_ordering (pr : Nat) (br : String)
    (yolo : Option Bool) (cfg : Bool) :
    (yolo.getD cfg = true →
      (MergeManager.mergePullRequest pr br yolo cfg).countP MergeManager.isCommentEv = 0) ∧
    (yolo.getD cfg = false →
      (MergeManager.mergePullRequest pr br yolo cfg).countP MergeManager.isCommentEv = 1 ∧
      (MergeManager.mergePullRequest pr br yolo cfg).findIdx MergeManager.isCommentEv <
        (MergeManager.mergePullRequest pr br yolo cfg).findIdx MergeManager.isMergeEv) := by
  constructor
  · intro h
    simp [MergeManager.mergePullRequest, h, List.countP_cons, MergeManager.isCommentEv]
  · intro h
    refine ⟨?_, ?_⟩
    · simp [MergeManager.mergePullRequest, h, List.countP_cons, MergeManager.isCommentEv]
    · simp [MergeManager.mergePullRequest, h, List.findIdx_cons,
        MergeManager.isCommentEv, MergeManager.isMergeEv]

/-- Witness for C3: a reviewed merge (explicit override `some false`)
posts exactly one comment, strictly before the merge call. -/
theorem mergePullRequest_comment_ordering_witness :
    (MergeManager.mergePullRequest 1 "b" (some false) true).countP MergeManager.isCommentEv = 1 ∧
    (MergeManager.mergePullRequest 1 "b" (some false) true).findIdx MergeManager.isCommentEv <
      (MergeManager.mergePullRequest 1 "b" (some false) true).findIdx MergeManager.isMergeEv :=
  (mergePullRequest_comment_ordering 1 "b" (some false) true).2 rfl

/-- Counterexample to C4: with a run already in flight, `startRun()`
does not raise — it succeeds and installs a fresh accumulator,
discarding the in-flight one. -/
theorem startRun_no_error_counterexample :
    Analytics.startRun "t2" (some (Analytics.freshAccumulator "t1")) =
      .ok (some (Analytics.freshAccumulator "t2")) ∧
    Analytics.freshAccumulator "t2" ≠ Analytics.freshAccumulator "t1" := by
  refine ⟨rfl, ?_⟩
  intro h
  have := congrArg Analytics.RunAccumulator.startedAt h
  simp [Analytics.freshAccumulator] at this

/-- C4 (amended): calling `startRun()` never raises, regardless of
whether a run is in flight; it silently replaces the module state with
a fresh zeroed accumulator. -/
theorem startRun_always_replaces (now : String)
    (cur : Option Analytics.RunAccumulator) :
    Analytics.startRun now cur = .ok (some (Analytics.freshAccumulator now)) := rfl

/-- Counterexample to C5: `recordPRMerged(true)` mutates two fields of
the in-flight record (`prsMerged` and `yoloMerges`), not exactly one. -/
theorem recordPRMerged_two_fields_counterexample :
    Analytics.changedFields (Analytics.freshAccumulator "t")
      (Analytics.recordPRMergedAcc true (Analytics.freshAccumulator "t")) = 2 := by
  decide

/-- C5 (amended): every `record*` operation mutates exactly one field of
the in-flight record — except `recordPRMerged` with `yolo = true`, which
mutates exactly two (`prsMerged` and `yoloMerges`); all remaining fields
are left unchanged. -/
theorem applyRecOp_changed_fields (op : Analytics.RecOp)
    (acc : Analytics.RunAccumulator) :
    Analytics.changedFields acc (Analytics.applyRecOp op acc) =
      (if op = .prMerged true then 2 else 1) := by
  cases op with
  | issueCreated =>
    simp [Analytics.changedFields, Analytics.applyRecOp, Analytics.recordIssueCreatedAcc]
  | issueClosed =>
    simp [Analytics.changedFields, Analytics.applyRecOp, Analytics.recordIssueClosedAcc]
  | prOpened =>
    simp [Analytics.changedFields, Analytics.applyRecOp, Analytics.recordPROpenedAcc]
  | prMerged yolo =>
    cases yolo <;>
      simp [Analytics.changedFields, Analytics.applyRecOp, Analytics.recordPRMergedAcc]
  | commentPosted =>
    simp [Analytics.changedFields, Analytics.applyRecOp, Analytics.recordCommentPostedAcc]
  | coAuthoredCommit =>
    simp [Analytics.changedFields, Analytics.applyRecOp, Analytics.recordCoAuthoredCommitAcc]
  | issueToComment i c =>
    simp [Analytics.changedFields, Analytics.applyRecOp, Analytics.recordIssueToCommentAcc]
  | prToMerge p m =>
    simp [Analytics.changedFields, Analytics.applyRecOp, Analytics.recordPRToMergeAcc]

/-- C8: with no run in progress, every `record*` operation and `endRun`
raise (return an error) and produce no new state. -/
theorem record_without_run_errors (i c p m : Int) (yolo : Bool) (now : String)
    (store : Analytics.AnalyticsData) :
    Analytics.recordIssueCreated none =
      .error "Analytics: no run in progress. Call startRun() first." ∧
    Analytics.recordIssueClosed none =
      .error "Analytics: no run in progress. Call startRun() first." ∧
    Analytics.recordPROpened none =
      .error "Analytics: no run in progress. Call startRun() first." ∧
    Analytics.recordPRMerged yolo none =
      .error "Analytics: no run in progress. Call startRun() first." ∧
    Analytics.recordCommentPosted none =
      .error "Analytics: no run in progress. Call startRun() first." ∧
    Analytics.recordCoAuthoredCommit none =
      .error "Analytics: no run in progress. Call startRun() first." ∧
    Analytics.recordIssueToComment i c none =
      .error "Analytics: no run in progress. Call startRun() first." ∧
    Analytics.recordPRToMerge p m none =
      .error "Analytics: no run in progress. Call startRun() first." ∧
    Analytics.endRun now none store = .error "endRun called before startRun" :=
  ⟨rfl, rfl, rfl, rfl, rfl, rfl, rfl, rfl, rfl⟩

namespace Analytics

/-- The source's `reduce`-based sum agrees with the mathematical list
sum. -/
theorem sumNums_eq_sum (l : List Int) : sumNums l = l.sum := by
  have key : ∀ (l : List Int) (a : Int), l.foldl (fun x y => x + y) a = a + l.sum := by
    intro l
    induction l with
    | nil => intro a; simp
    | cons x xs ih => intro a; simp [ih, add_assoc]
  simpa [sumNums] using key l 0

/-- The source's `avg` computes the spec's arithmetic mean, with an
empty sequence yielding 0. -/
theorem avg_eq_meanOrZero (l : List Int) : avg l = meanOrZero l := by
  unfold avg meanOrZero
  rcases eq_or_ne l [] with rfl | h
  · simp
  · rw [if_neg (by simpa using h), if_neg h, sumNums_eq_sum]

end Analytics

/-- C6: `endRun` appends the finalized record to the persisted store
(and that store is what reporting reads); on any persisted store each
aggregate counter total equals the sum of that field across all
persisted records, and each of the two average latencies equals the
arithmetic mean of the concatenation of that latency sequence across
all persisted records, an empty concatenation yielding 0. -/
theorem aggregate_stats_totals (now : String) (acc : Analytics.RunAccumulator)
    (store : Analytics.AnalyticsData) :
    Analytics.endRun now (some acc) store =
      .ok (Analytics.finalizeRecord now acc,
        { version := store.version,
          runs := store.runs ++ [Analytics.finalizeRecord now acc] }, none) ∧
    ∀ data : Analytics.AnalyticsData,
      (Analytics.getAggregateStats data).totalRuns = data.runs.length ∧
      (Analytics.getAggregateStats data).totalIssuesCreated =
        (data.runs.map (fun r => r.issuesCreated)).sum ∧
      (Analytics.getAggregateStats data).totalIssuesClosed =
        (data.runs.map (fun r => r.issuesClosed)).sum ∧
      (Analytics.getAggregateStats data).totalPRsOpened =
        (data.runs.map (fun r => r.prsOpened)).sum ∧
      (Analytics.getAggregateStats data).totalPRsMerged =
        (data.runs.map (fun r => r.prsMerged)).sum ∧
      (Analytics.getAggregateStats data).totalYoloMerges =
        (data.runs.map (fun r => r.yoloMerges)).sum ∧
      (Analytics.getAggregateStats data).totalComments =
        (data.runs.map (fun r => r.commentsPosted)).sum ∧
      (Analytics.getAggregateStats data).totalCoAuthoredCommits =
        (data.runs.map (fun r => r.coAuthoredCommits)).sum ∧
      (Analytics.getAggregateStats data).avgIssueToCommentMs =
        Analytics.meanOrZero ((data.runs.map (fun r => r.issueToFirstCommentMs)).flatten) ∧
      (Analytics.getAggregateStats data).avgPRToMergeMs =
        Analytics.meanOrZero ((data.runs.map (fun r => r.prOpenToMergeMs)).flatten) := by
  refine ⟨rfl, ?_⟩
  intro data
  refine ⟨rfl, ?_, ?_, ?_, ?_, ?_, ?_, ?_, ?_, ?_⟩ <;>
    simp [Analytics.getAggregateStats, Analytics.sumNums_eq_sum,
      Analytics.avg_eq_meanOrZero]

namespace Analytics

/-- The fresh accumulator satisfies the non-negativity invariant. -/
theorem freshAccumulator_nonneg (now : String) : AccNonneg (freshAccumulator now) := by
  refine ⟨le_refl 0, le_refl 0, le_refl 0, le_refl 0, le_refl 0, le_refl 0, le_refl 0, ?_, ?_⟩ <;>
    simp [freshAccumulator]

/-- Every `record*` update preserves the non-negativity invariant. -/
theorem applyRecOp_nonneg (op : RecOp) (acc : RunAccumulator)
    (h : AccNonneg acc) : AccNonneg (applyRecOp op acc) := by
  obtain ⟨h1, h2, h3, h4, h5, h6, h7, h8, h9⟩ := h
  cases op with
  | issueCreated =>
    exact ⟨by change 0 ≤ acc.issuesCreated + 1; omega, h2, h3, h4, h5, h6, h7, h8, h9⟩
  | issueClosed =>
    exact ⟨h1, by change 0 ≤ acc.issuesClosed + 1; omega, h3, h4, h5, h6, h7, h8, h9⟩
  | prOpened =>
    exact ⟨h1, h2, by change 0 ≤ acc.prsOpened + 1; omega, h4, h5, h6, h7, h8, h9⟩
  | prMerged yolo =>
    cases yolo with
    | false =>
      exact ⟨h1, h2, h3, by change 0 ≤ acc.prsMerged + 1; omega, h5, h6, h7, h8, h9⟩
    | true =>
      exact ⟨h1, h2, h3, by change 0 ≤ acc.prsMerged + 1; omega,
        by change 0 ≤ acc.yoloMerges + 1; omega, h6, h7, h8, h9⟩
  | commentPosted =>
    exact ⟨h1, h2, h3, h4, h5, by change 0 ≤ acc.commentsPosted + 1; omega, h7, h8, h9⟩
  | coAuthoredCommit =>
    exact ⟨h1, h2, h3, h4, h5, h6, by change 0 ≤ acc.coAuthoredCommits + 1; omega, h8, h9⟩
  | issueToComment i c =>
    refine ⟨h1, h2, h3, h4, h5, h6, h7, ?_, h9⟩
    intro x hx
    rcases List.mem_append.1 hx with hx | hx
    · exact h8 x hx
    · simp at hx
      subst hx
      exact le_max_right _ _
  | prToMerge p m =>
    refine ⟨h1, h2, h3, h4, h5, h6, h7, h8, ?_⟩
    intro x hx
    rcases List.mem_append.1 hx with hx | hx
    · exact h9 x hx
    · simp at hx
      subst hx
      exact le_max_right _ _

/-- Folding any sequence of `record*` updates preserves the invariant. -/
theorem foldl_applyRecOp_nonneg (ops : List RecOp) :
    ∀ acc : RunAccumulator, AccNonneg acc →
      AccNonneg (ops.foldl (fun a op => applyRecOp op a) acc) := by
  induction ops with
  | nil => intro acc h; exact h
  | cons op rest ih => intro acc h; exact ih _ (applyRecOp_nonneg op acc h)

end Analytics

/-- C7: the duration appended by `recordIssueToComment` and
`recordPRToMerge` is the computed difference clamped at 0 (never
negative); consequently, after any sequence of `record*` operations
starting from a fresh run, every counter and every latency entry of the
in-flight record is non-negative. -/
theorem record_latency_clamped (i c p m : Int) (acc : Analytics.RunAccumulator)
    (ops : List Analytics.RecOp) (now : String) :
    (Analytics.recordIssueToCommentAcc i c acc).issueToFirstCommentMs =
      acc.issueToFirstCommentMs ++ [max (c - i) 0] ∧
    (Analytics.recordPRToMergeAcc p m acc).prOpenToMergeMs =
      acc.prOpenToMergeMs ++ [max (m - p) 0] ∧
    Analytics.AccNonneg
      (ops.foldl (fun a op => Analytics.applyRecOp op a) (Analytics.freshAccumulator now)) :=
  ⟨rfl, rfl,
    Analytics.foldl_applyRecOp_nonneg ops (Analytics.freshAccumulator now)
      (Analytics.freshAccumulator_nonneg now)⟩

/-- C10: a duration of exactly 0 ms is rendered "n/a"; a positive
duration is rounded to whole seconds and rendered "<s>s" when the
rounded value is under 60 and "<m>m <s>s" otherwise; a run history with
no recorded latencies displays "n/a" for both averages. -/
theorem formatMs_rendering (q : ℚ) (data : Analytics.AnalyticsData) :
    Analytics.formatMs 0 = "n/a" ∧
    (0 < q →
      (Analytics.jsRound (q / 1000) < 60 →
        Analytics.formatMs q = toString (Analytics.jsRound (q / 1000)) ++ "s") ∧
      (60 ≤ Analytics.jsRound (q / 1000) →
        Analytics.formatMs q =
          toString (Analytics.jsRound (q / 1000) / 60) ++ "m " ++
          toString (Analytics.jsRound (q / 1000) % 60) ++ "s")) ∧
    ((∀ r ∈ data.runs, r.issueToFirstCommentMs = [] ∧ r.prOpenToMergeMs = []) →
      Analytics.latencySummary data = ("n/a", "n/a")) := by
  have hform : ∀ p : ℚ, Analytics.formatMs p =
      if p = 0 then "n/a"
      else if Analytics.jsRound (p / 1000) < 60 then
        toString (Analytics.jsRound (p / 1000)) ++ "s"
      else
        toString (Analytics.jsRound (p / 1000) / 60) ++ "m " ++
          toString (Analytics.jsRound (p / 1000) % 60) ++ "s" := fun p => rfl
  refine ⟨by rw [hform]; simp, ?_, ?_⟩
  · intro hq
    constructor
    · intro h60
      rw [hform, if_neg hq.ne', if_pos h60]
    · intro h60
      rw [hform, if_neg hq.ne', if_neg (not_lt.2 h60)]
  · intro h
    have h1 : (data.runs.map (fun r => r.issueToFirstCommentMs)).flatten = [] := by
      rw [List.flatten_eq_nil_iff]
      intro l hl
      rcases List.mem_map.1 hl with ⟨r, hr, rfl⟩
      exact (h r hr).1
    have h2 : (data.runs.map (fun r => r.prOpenToMergeMs)).flatten = [] := by
      rw [List.flatten_eq_nil_iff]
      intro l hl
      rcases List.mem_map.1 hl with ⟨r, hr, rfl⟩
      exact (h r hr).2
    have hsum : Analytics.latencySummary data =
        (Analytics.formatMs (Analytics.avg
            ((data.runs.map (fun r => r.issueToFirstCommentMs)).flatten)),
         Analytics.formatMs (Analytics.avg
            ((data.runs.map (fun r => r.prOpenToMergeMs)).flatten))) := rfl
    rw [hsum, h1, h2]
    rfl

/-- Witness for C10: 500 ms rounds to "1s", and a store holding one run
with no recorded latencies reports "n/a" for both averages. -/
theorem formatMs_rendering_witness :
    Analytics.formatMs 500 = "1s" ∧
    Analytics.latencySummary
        ⟨1, [Analytics.finalizeRecord "t2" (Analytics.freshAccumulator "t1")]⟩ =
      ("n/a", "n/a") := by
  have h := formatMs_rendering 500
    ⟨1, [Analytics.finalizeRecord "t2" (Analytics.freshAccumulator "t1")]⟩
  have hround : Analytics.jsRound (500 / 1000) = 1 := by
    norm_num [Analytics.jsRound]
  refine ⟨?_, ?_⟩
  · have h1 := (h.2.1 (by norm_num)).1 (by rw [hround]; norm_num)
    rw [h1, hround]
    decide
  · exact h.2.2 (by
      intro r hr
      simp at hr
      subst hr
      exact ⟨rfl, rfl⟩)
